import Mathlib

/-!
Verification development for the Smart Doctor Assistant booking engine.

The definitions below are a shallow embedding of the engine's components:
the appointments table and its uniqueness constraint (database/schema.sql),
the conflict queries of the booking path (the exact-match and overlap
filters shown in the final verification report), the alternative-slot
search, the input validator's date check (PRODUCTION_UPGRADE.md), the
agent orchestrator loop (the fixed loop reproduced in
SECURITY_USER_ISOLATION.md), and the dual-key conversation memory store.

Times of day are modelled as minutes since midnight (a `TIME` column),
dates as opaque strings (a `DATE` column compared only for equality),
and machine-level concerns (JSON marshalling, SQL transport) are elided.
-/

namespace SmartDoctor

/-- One row of the `appointments` table from `database/schema.sql`.
`appointment_time` is minutes since midnight; `status` is one of
`scheduled`, `completed`, `cancelled`, `no-show`. -/
structure Appointment where
  patient_id : Nat
  doctor_id : Nat
  appointment_date : String
  appointment_time : Nat
  duration_minutes : Nat
  status : String
deriving DecidableEq, Repr

/-- The exact-time-slot query of the booking path:
`doctor_id == d ∧ appointment_date == date ∧ appointment_time == t ∧ status != 'cancelled'`,
tested for a first matching row. -/
def exactMatchExists (doctorId : Nat) (date : String) (t : Nat)
    (table : List Appointment) : Bool :=
  table.any fun a =>
    a.doctor_id == doctorId && a.appointment_date == date &&
      a.appointment_time == t && a.status != "cancelled"

/-- The overlapping-appointment query of the booking path:
an existing row overlaps the requested interval when its start is before
the requested end and its end (start + duration) is after the requested
start, again excluding cancelled rows. -/
def overlapExists (doctorId : Nat) (date : String) (t dur : Nat)
    (table : List Appointment) : Bool :=
  table.any fun a =>
    a.doctor_id == doctorId && a.appointment_date == date &&
      a.appointment_time < t + dur &&
      t < a.appointment_time + a.duration_minutes &&
      a.status != "cancelled"

/-- The conflict decision of the validator: a requested slot conflicts when
the exact-match query or the overlap query returns a row. -/
def checkConflict (doctorId : Nat) (date : String) (t dur : Nat)
    (table : List Appointment) : Bool :=
  exactMatchExists doctorId date t table || overlapExists doctorId date t dur table

/-- Whether some row of the table — regardless of status — occupies the key
`(doctor_id, appointment_date, appointment_time)`. -/
def hasRowAt (table : List Appointment) (doctorId : Nat) (date : String)
    (t : Nat) : Bool :=
  table.any fun b =>
    b.doctor_id == doctorId && b.appointment_date == date &&
      b.appointment_time == t

/-- The `UNIQUE(doctor_id, appointment_date, appointment_time)` constraint of
the `appointments` table: a new row violates it when any existing row —
regardless of status — has the same doctor, date and start time. -/
def violatesUniqueConstraint (table : List Appointment) (a : Appointment) : Bool :=
  hasRowAt table a.doctor_id a.appointment_date a.appointment_time

/-- Inserting into the `appointments` table: the insert is guarded by the
uniqueness constraint on `(doctor_id, appointment_date, appointment_time)`
and fails with a constraint violation when it is already occupied. -/
def insertAppointment (table : List Appointment) (a : Appointment) :
    Except String (List Appointment) :=
  if violatesUniqueConstraint table a then
    .error "duplicate key value violates unique constraint (doctor_id, appointment_date, appointment_time)"
  else
    .ok (table ++ [a])

/-- A helper row predicate: the row is a non-cancelled booking of this doctor
on this date that either starts exactly at `t` or overlaps `[t, t + dur)`. -/
def rowConflictsWith (doctorId : Nat) (date : String) (t dur : Nat)
    (a : Appointment) : Prop :=
  a.doctor_id = doctorId ∧ a.appointment_date = date ∧ a.status ≠ "cancelled" ∧
    (a.appointment_time = t ∨
      (a.appointment_time < t + dur ∧ t < a.appointment_time + a.duration_minutes))

theorem exactMatchExists_iff (doctorId : Nat) (date : String) (t : Nat)
    (table : List Appointment) :
    exactMatchExists doctorId date t table = true ↔
      ∃ a ∈ table, a.doctor_id = doctorId ∧ a.appointment_date = date ∧
        a.appointment_time = t ∧ a.status ≠ "cancelled" := by
  simp [exactMatchExists, List.any_eq_true, Bool.and_eq_true, beq_iff_eq, bne_iff_ne]
  tauto

theorem overlapExists_iff (doctorId : Nat) (date : String) (t dur : Nat)
    (table : List Appointment) :
    overlapExists doctorId date t dur table = true ↔
      ∃ a ∈ table, a.doctor_id = doctorId ∧ a.appointment_date = date ∧
        a.appointment_time < t + dur ∧ t < a.appointment_time + a.duration_minutes ∧
        a.status ≠ "cancelled" := by
  simp [overlapExists, List.any_eq_true, Bool.and_eq_true, beq_iff_eq, bne_iff_ne,
    decide_eq_true_eq]
  tauto

/-- Claim C5: `checkConflict` reports a conflict exactly when some
non-cancelled booking of the same doctor on the same date either starts at
the requested time or has an interval overlapping the requested
`[start, start + duration)`; and a slot whose only bookings are cancelled
is accepted. -/
theorem checkConflict_characterization (doctorId : Nat) (date : String)
    (t dur : Nat) (table : List Appointment) :
    (checkConflict doctorId date t dur table = true ↔
      ∃ a ∈ table, rowConflictsWith doctorId date t dur a) ∧
    ((∀ a ∈ table, a.status = "cancelled") →
      checkConflict doctorId date t dur table = false) := by
  constructor
  · constructor
    · intro h
      rcases Bool.or_eq_true_iff.mp h with h' | h'
      · rcases (exactMatchExists_iff doctorId date t table).mp h' with
          ⟨a, ha, h1, h2, h3, h4⟩
        exact ⟨a, ha, h1, h2, h4, Or.inl h3⟩
      · rcases (overlapExists_iff doctorId date t dur table).mp h' with
          ⟨a, ha, h1, h2, h3, h4, h5⟩
        exact ⟨a, ha, h1, h2, h5, Or.inr ⟨h3, h4⟩⟩
    · rintro ⟨a, ha, h1, h2, h3, h4 | h4⟩
      · exact Bool.or_eq_true_iff.mpr (Or.inl
          ((exactMatchExists_iff doctorId date t table).mpr ⟨a, ha, h1, h2, h4, h3⟩))
      · exact Bool.or_eq_true_iff.mpr (Or.inr
          ((overlapExists_iff doctorId date t dur table).mpr
            ⟨a, ha, h1, h2, h4.1, h4.2, h3⟩))
  · intro hall
    by_contra h
    have h' : checkConflict doctorId date t dur table = true := by
      cases hcc : checkConflict doctorId date t dur table
      · exact absurd hcc h
      · rfl
    rcases Bool.or_eq_true_iff.mp h' with h'' | h''
    · rcases (exactMatchExists_iff doctorId date t table).mp h'' with
        ⟨a, ha, _, _, _, h4⟩
      exact h4 (hall a ha)
    · rcases (overlapExists_iff doctorId date t dur table).mp h'' with
        ⟨a, ha, _, _, _, _, h5⟩
      exact h5 (hall a ha)

/-- Witness for C5: on a table holding one scheduled booking at 10:00 for
30 minutes, a request for the same doctor, date and 10:00 conflicts, and a
table holding only cancelled bookings never conflicts. -/
theorem checkConflict_characterization_witness :
    (checkConflict 1 "2025-12-22" 600 30
        [⟨1, 1, "2025-12-22", 600, 30, "scheduled"⟩] = true ↔
      ∃ a ∈ [(⟨1, 1, "2025-12-22", 600, 30, "scheduled"⟩ : Appointment)],
        rowConflictsWith 1 "2025-12-22" 600 30 a) ∧
    ((∀ a ∈ [(⟨1, 1, "2025-12-22", 600, 30, "scheduled"⟩ : Appointment)],
        a.status = "cancelled") →
      checkConflict 1 "2025-12-22" 600 30
        [⟨1, 1, "2025-12-22", 600, 30, "scheduled"⟩] = false) :=
  checkConflict_characterization 1 "2025-12-22" 600 30
    [⟨1, 1, "2025-12-22", 600, 30, "scheduled"⟩]

/-- Claim C10: when the only appointment at a given (doctor, date, time) is
cancelled, the validator accepts the slot — cancelled rows are excluded from
both conflict queries — yet the insert fails with a uniqueness violation,
because the table's unique constraint has no status filter. -/
theorem cancelled_row_accepted_then_insert_fails
    (table : List Appointment) (a : Appointment)
    (hall : ∀ b ∈ table, b.status = "cancelled")
    (hmatch : ∃ b ∈ table, b.doctor_id = a.doctor_id ∧
      b.appointment_date = a.appointment_date ∧
      b.appointment_time = a.appointment_time) :
    checkConflict a.doctor_id a.appointment_date a.appointment_time
      a.duration_minutes table = false ∧
    insertAppointment table a =
      .error "duplicate key value violates unique constraint (doctor_id, appointment_date, appointment_time)" := by
  constructor
  · exact (checkConflict_characterization a.doctor_id a.appointment_date
      a.appointment_time a.duration_minutes table).2 hall
  · rcases hmatch with ⟨b, hb, h1, h2, h3⟩
    have hv : violatesUniqueConstraint table a = true := by
      simp only [violatesUniqueConstraint, hasRowAt, List.any_eq_true,
        Bool.and_eq_true, beq_iff_eq]
      exact ⟨b, hb, ⟨h1, h2⟩, h3⟩
    simp [insertAppointment, hv]

/-- Witness for C10: a table whose only row is a cancelled booking of doctor 1
on 2025-12-22 at 10:00; re-booking the same slot passes the validator but the
insert hits the uniqueness constraint. -/
theorem cancelled_row_accepted_then_insert_fails_witness :
    checkConflict (⟨2, 1, "2025-12-22", 600, 30, "scheduled"⟩ : Appointment).doctor_id
      (⟨2, 1, "2025-12-22", 600, 30, "scheduled"⟩ : Appointment).appointment_date
      (⟨2, 1, "2025-12-22", 600, 30, "scheduled"⟩ : Appointment).appointment_time
      (⟨2, 1, "2025-12-22", 600, 30, "scheduled"⟩ : Appointment).duration_minutes
      [⟨1, 1, "2025-12-22", 600, 30, "cancelled"⟩] = false ∧
    insertAppointment [⟨1, 1, "2025-12-22", 600, 30, "cancelled"⟩]
      ⟨2, 1, "2025-12-22", 600, 30, "scheduled"⟩ =
      .error "duplicate key value violates unique constraint (doctor_id, appointment_date, appointment_time)" :=
  cancelled_row_accepted_then_insert_fails
    [⟨1, 1, "2025-12-22", 600, 30, "cancelled"⟩]
    ⟨2, 1, "2025-12-22", 600, 30, "scheduled"⟩
    (by decide)
    ⟨⟨1, 1, "2025-12-22", 600, 30, "cancelled"⟩, by decide, by decide⟩

/-- The candidate slots of one working day: start times
`workStart + k * slotDur` stepped in `slotDur`-minute increments for as long
as a whole slot still fits before `workEnd`. -/
def daySlots (workStart workEnd slotDur : Nat) : List Nat :=
  (List.range ((workEnd - workStart) / slotDur)).map fun k => workStart + k * slotDur

/-- Modelled from the spec: the alternative-slot search of
`backend/utils/appointment_validator.py` is not among the source files (only
its description and its observed output are); per the spec it walks the
provider's working hours in `slotDurationMinutes` increments in chronological
order, skips any interval that overlaps an existing (non-cancelled) booking,
and stops once 5 slots are found or the day is exhausted. -/
def findAlternativeSlots (doctorId : Nat) (date : String)
    (workStart workEnd slotDur : Nat) (table : List Appointment) : List Nat :=
  ((daySlots workStart workEnd slotDur).filter fun t =>
    !(overlapExists doctorId date t slotDur table)).take 5

theorem daySlots_mem_bounds {workStart workEnd slotDur t : Nat}
    (ht : t ∈ daySlots workStart workEnd slotDur) :
    workStart ≤ t ∧ t + slotDur ≤ workEnd := by
  simp only [daySlots, List.mem_map, List.mem_range] at ht
  rcases ht with ⟨k, hk, rfl⟩
  refine ⟨Nat.le_add_right _ _, ?_⟩
  have hsd : 0 < slotDur := by
    by_contra h
    have : slotDur = 0 := Nat.eq_zero_of_not_pos h
    simp [this] at hk
  have hmul : (k + 1) * slotDur ≤ workEnd - workStart := by
    have := (Nat.le_div_iff_mul_le hsd).mp hk
    exact this
  have hexp : (k + 1) * slotDur = k * slotDur + slotDur := by
    rw [Nat.succ_mul]
  rw [hexp] at hmul
  omega

theorem daySlots_pairwise_lt (workStart workEnd slotDur : Nat)
    (hsd : 0 < slotDur) :
    (daySlots workStart workEnd slotDur).Pairwise (· < ·) := by
  refine List.Pairwise.map _ ?_ (List.pairwise_lt_range _)
  intro a b hab
  have : a * slotDur < b * slotDur := (Nat.mul_lt_mul_right hsd).mpr hab
  omega

theorem findAlternativeSlots_length_le (doctorId : Nat) (date : String)
    (ws we sd : Nat) (table : List Appointment) :
    (findAlternativeSlots doctorId date ws we sd table).length ≤ 5 :=
  List.length_take_le _ _

theorem findAlternativeSlots_pairwise (doctorId : Nat) (date : String)
    (ws we sd : Nat) (table : List Appointment) (hsd : 0 < sd) :
    (findAlternativeSlots doctorId date ws we sd table).Pairwise (· < ·) :=
  List.Pairwise.take ((daySlots_pairwise_lt ws we sd hsd).filter _)

theorem findAlternativeSlots_mem (doctorId : Nat) (date : String)
    (ws we sd : Nat) (table : List Appointment) {t : Nat}
    (ht : t ∈ findAlternativeSlots doctorId date ws we sd table) :
    overlapExists doctorId date t sd table = false ∧ ws ≤ t ∧ t + sd ≤ we := by
  have ht' := List.mem_of_mem_take ht
  have htslot : t ∈ daySlots ws we sd := List.mem_of_mem_filter ht'
  have hkeep := List.of_mem_filter ht'
  have hov : overlapExists doctorId date t sd table = false := by
    cases h : overlapExists doctorId date t sd table
    · rfl
    · rw [h] at hkeep; exact absurd hkeep (by decide)
  exact ⟨hov, (daySlots_mem_bounds htslot).1, (daySlots_mem_bounds htslot).2⟩

/-- The Tuesday scenario's existing booking: doctor 1, 10:00 for 30 minutes,
status scheduled. -/
def tuesdayBooking : Appointment :=
  ⟨1, 1, "Tuesday", 600, 30, "scheduled"⟩

/-- Claim C6: the alternative-slot search returns at most 5 slots, in strictly
increasing (chronological) order, each lying within working hours and
overlapping no existing active booking; and in the concrete scenario of a
provider working 09:00–17:00 with 30-minute slots and one booking Tuesday
10:00–10:30, a request for Tuesday 10:00 conflicts and the suggestions begin
09:00 (540), 09:30 (570), 10:30 (630) in that order, never including
10:00 (600). -/
theorem alternative_slots_spec (doctorId : Nat) (date : String)
    (ws we sd : Nat) (table : List Appointment) (hsd : 0 < sd) :
    (findAlternativeSlots doctorId date ws we sd table).length ≤ 5 ∧
    (findAlternativeSlots doctorId date ws we sd table).Pairwise (· < ·) ∧
    (∀ t ∈ findAlternativeSlots doctorId date ws we sd table,
      overlapExists doctorId date t sd table = false ∧ ws ≤ t ∧ t + sd ≤ we) ∧
    (checkConflict 1 "Tuesday" 600 30 [tuesdayBooking] = true ∧
      (findAlternativeSlots 1 "Tuesday" 540 1020 30 [tuesdayBooking]).take 3 =
        [540, 570, 630] ∧
      600 ∉ findAlternativeSlots 1 "Tuesday" 540 1020 30 [tuesdayBooking]) := by
  exact ⟨findAlternativeSlots_length_le doctorId date ws we sd table,
    findAlternativeSlots_pairwise doctorId date ws we sd table hsd,
    fun t ht => findAlternativeSlots_mem doctorId date ws we sd table ht,
    by decide, by decide, by decide⟩

/-- Witness for C6: the theorem instantiated at the Tuesday scenario itself
(doctor 1, working 09:00–17:00, 30-minute slots). -/
theorem alternative_slots_spec_witness :
    (findAlternativeSlots 1 "Tuesday" 540 1020 30 [tuesdayBooking]).length ≤ 5 ∧
    (findAlternativeSlots 1 "Tuesday" 540 1020 30 [tuesdayBooking]).Pairwise (· < ·) ∧
    (∀ t ∈ findAlternativeSlots 1 "Tuesday" 540 1020 30 [tuesdayBooking],
      overlapExists 1 "Tuesday" t 30 [tuesdayBooking] = false ∧
        540 ≤ t ∧ t + 30 ≤ 1020) ∧
    (checkConflict 1 "Tuesday" 600 30 [tuesdayBooking] = true ∧
      (findAlternativeSlots 1 "Tuesday" 540 1020 30 [tuesdayBooking]).take 3 =
        [540, 570, 630] ∧
      600 ∉ findAlternativeSlots 1 "Tuesday" 540 1020 30 [tuesdayBooking]) :=
  alternative_slots_spec 1 "Tuesday" 540 1020 30 [tuesdayBooking] (by decide)

/-- A booking request for a concrete slot, as submitted to the appointments
endpoint. -/
structure BookingRequest where
  patient_id : Nat
  doctor_id : Nat
  appointment_date : String
  appointment_time : Nat
  duration_minutes : Nat
deriving DecidableEq, Repr

/-- The table row a booking request would create (new bookings are inserted
with status `scheduled`). -/
def BookingRequest.toRow (r : BookingRequest) : Appointment :=
  ⟨r.patient_id, r.doctor_id, r.appointment_date, r.appointment_time,
    r.duration_minutes, "scheduled"⟩

/-- The outcome reported to one caller of the booking endpoint: either the
booking succeeded, or a conflict response carrying a message and the
suggested alternative start times. -/
inductive BookingOutcome
| booked
| conflictResponse (message : String) (suggestedSlots : List Nat)
deriving DecidableEq, Repr

def BookingOutcome.isBooked : BookingOutcome → Bool
  | .booked => true
  | .conflictResponse _ _ => false

def BookingOutcome.isConflict : BookingOutcome → Bool
  | .booked => false
  | .conflictResponse _ _ => true

/-- The conflict message used when no alternative slot is open on the date. -/
def noAlternativesMessage : String :=
  "This time slot is already booked. No available slots found on this date. Please try another day."

/-- The conflict message used when alternative slots are offered. -/
def alternativesMessage : String :=
  "This time slot is already booked. Try these times instead."

/-- The conflict response produced for a fully-validated attempt whose insert
nonetheless hit the uniqueness constraint, computed against the table as it
stood when the insert ran. -/
def conflictOutcomeFor (ws we sd did : Nat) (d : String)
    (table : List Appointment) : BookingOutcome :=
  let sugg := findAlternativeSlots did d ws we sd table
  if sugg.isEmpty then .conflictResponse noAlternativesMessage []
  else .conflictResponse alternativesMessage sugg

/-- Modelled from the spec: the insert step that follows a clean
`validateComplete` — the repository code of `backend/main.py` is not among
the source files — performs the insert under the table's uniqueness
constraint and, on a constraint violation, answers with a conflict response
carrying up to 5 alternative slots, or the explicit no-alternatives message
when the day is fully booked. -/
def attemptInsert (ws we sd : Nat) (table : List Appointment)
    (r : BookingRequest) : BookingOutcome × List Appointment :=
  match insertAppointment table r.toRow with
  | .ok t2 => (.booked, t2)
  | .error _ => (conflictOutcomeFor ws we sd r.doctor_id r.appointment_date table, table)

/-- Serializes a batch of concurrent booking attempts: the database applies
the constraint-guarded inserts one at a time, in the given order, each seeing
the table state left by the previous one. -/
def runAttempts (ws we sd : Nat) :
    List Appointment → List BookingRequest → List BookingOutcome × List Appointment
  | table, [] => ([], table)
  | table, r :: rs =>
    let p := attemptInsert ws we sd table r
    let q := runAttempts ws we sd p.2 rs
    (p.1 :: q.1, q.2)

theorem attemptInsert_of_free (ws we sd : Nat) (table : List Appointment)
    (r : BookingRequest)
    (h : hasRowAt table r.doctor_id r.appointment_date r.appointment_time = false) :
    attemptInsert ws we sd table r = (.booked, table ++ [r.toRow]) := by
  have hv : violatesUniqueConstraint table r.toRow = false := h
  simp [attemptInsert, insertAppointment, hv]

theorem attemptInsert_of_taken (ws we sd : Nat) (table : List Appointment)
    (r : BookingRequest)
    (h : hasRowAt table r.doctor_id r.appointment_date r.appointment_time = true) :
    attemptInsert ws we sd table r =
      (conflictOutcomeFor ws we sd r.doctor_id r.appointment_date table, table) := by
  have hv : violatesUniqueConstraint table r.toRow = true := h
  simp [attemptInsert, insertAppointment, hv]

theorem hasRowAt_append_self (table : List Appointment) (r : BookingRequest) :
    hasRowAt (table ++ [r.toRow]) r.doctor_id r.appointment_date
      r.appointment_time = true := by
  simp [hasRowAt, List.any_append, BookingRequest.toRow]

theorem runAttempts_all_taken (ws we sd did t : Nat) (d : String) :
    ∀ (rs : List BookingRequest) (table : List Appointment),
      hasRowAt table did d t = true →
      (∀ r ∈ rs, r.doctor_id = did ∧ r.appointment_date = d ∧
        r.appointment_time = t) →
      runAttempts ws we sd table rs =
        (rs.map fun _ => conflictOutcomeFor ws we sd did d table, table)
  | [], table, _, _ => rfl
  | r :: rs, table, htaken, hkeys => by
    have hk := hkeys r (List.mem_cons_self r rs)
    have h1 : hasRowAt table r.doctor_id r.appointment_date
        r.appointment_time = true := by
      rw [hk.1, hk.2.1, hk.2.2]; exact htaken
    have hrest := runAttempts_all_taken ws we sd did t d rs table htaken
      (fun r' hr' => hkeys r' (List.mem_cons_of_mem r hr'))
    simp only [runAttempts, attemptInsert_of_taken ws we sd table r h1, hrest,
      List.map_cons, hk.1, hk.2.1]

/-- Every field of a `conflictOutcomeFor` response is well-formed: it is a
conflict (never a success), its suggestions number at most 5, each lies
within working hours and overlaps no booking of the snapshot it was computed
from, and an empty suggestion list comes with the explicit no-alternatives
message. -/
theorem conflictOutcomeFor_valid (ws we sd did : Nat) (d : String)
    (table : List Appointment) (hsd : 0 < sd) :
    ∀ msg sugg, conflictOutcomeFor ws we sd did d table =
        .conflictResponse msg sugg →
      sugg.length ≤ 5 ∧ sugg.Pairwise (· < ·) ∧
      (∀ s ∈ sugg, ws ≤ s ∧ s + sd ≤ we ∧
        overlapExists did d s sd table = false) ∧
      (sugg = [] → msg = noAlternativesMessage) := by
  intro msg sugg h
  by_cases he : (findAlternativeSlots did d ws we sd table).isEmpty
  · simp only [conflictOutcomeFor, he, if_pos] at h
    obtain ⟨rfl, rfl⟩ : msg = noAlternativesMessage ∧ sugg = ([] : List Nat) := by
      cases h; exact ⟨rfl, rfl⟩
    exact ⟨by simp, by simp, by simp, fun _ => rfl⟩
  · simp only [conflictOutcomeFor, he, if_neg, Bool.false_eq_true,
      not_false_iff] at h
    obtain ⟨rfl, rfl⟩ :
        msg = alternativesMessage ∧
          sugg = findAlternativeSlots did d ws we sd table := by
      cases h; exact ⟨rfl, rfl⟩
    refine ⟨findAlternativeSlots_length_le did d ws we sd table,
      findAlternativeSlots_pairwise did d ws we sd table hsd, ?_, ?_⟩
    · intro s hs
      have := findAlternativeSlots_mem did d ws we sd table hs
      exact ⟨this.2.1, this.2.2, this.1⟩
    · intro habs
      rw [habs] at he
      exact absurd rfl he

/-- Claim C2: for any N ≥ 2 booking attempts for the identical
(doctor, date, time) slot — all validated against the same pre-insert
snapshot in which the slot is free — serializing their constraint-guarded
inserts in any order yields exactly one success and N − 1 conflict
responses, each carrying at most 5 valid (in-hours, non-overlapping,
chronological) suggested alternatives or an empty list with the explicit
no-alternatives message; the uniqueness constraint on
`(doctor_id, appointment_date, appointment_time)` makes a second success
impossible. -/
theorem no_double_booking (ws we sd did t : Nat) (d : String)
    (table : List Appointment) (attempts : List BookingRequest)
    (hsd : 0 < sd) (hN : 2 ≤ attempts.length)
    (hkey : ∀ r ∈ attempts, r.doctor_id = did ∧ r.appointment_date = d ∧
      r.appointment_time = t)
    (hfree : hasRowAt table did d t = false) :
    ((runAttempts ws we sd table attempts).1.countP
      BookingOutcome.isBooked) = 1 ∧
    ((runAttempts ws we sd table attempts).1.countP
      BookingOutcome.isConflict) = attempts.length - 1 ∧
    (∀ o ∈ (runAttempts ws we sd table attempts).1, ∀ msg sugg,
      o = .conflictResponse msg sugg →
        sugg.length ≤ 5 ∧ sugg.Pairwise (· < ·) ∧
        (∀ s ∈ sugg, ws ≤ s ∧ s + sd ≤ we ∧
          overlapExists did d s sd (runAttempts ws we sd table attempts).2 =
            false) ∧
        (sugg = [] → msg = noAlternativesMessage)) := by
  match attempts, hN with
  | r :: rs, _ =>
    have hk := hkey r (List.mem_cons_self r rs)
    have hfree' : hasRowAt table r.doctor_id r.appointment_date
        r.appointment_time = false := by
      rw [hk.1, hk.2.1, hk.2.2]; exact hfree
    have hstep := attemptInsert_of_free ws we sd table r hfree'
    have htaken : hasRowAt (table ++ [r.toRow]) did d t = true := by
      have := hasRowAt_append_self table r
      rw [hk.1, hk.2.1, hk.2.2] at this
      exact this
    have hrest := runAttempts_all_taken ws we sd did t d rs
      (table ++ [r.toRow]) htaken
      (fun r' hr' => hkey r' (List.mem_cons_of_mem r hr'))
    have hrun : runAttempts ws we sd table (r :: rs) =
        ((.booked : BookingOutcome) ::
          (rs.map fun _ =>
            conflictOutcomeFor ws we sd did d (table ++ [r.toRow])),
          table ++ [r.toRow]) := by
      simp only [runAttempts, hstep, hrest]
    rw [hrun]
    have hconf : ∀ o ∈ (rs.map fun _ =>
        conflictOutcomeFor ws we sd did d (table ++ [r.toRow])),
        o.isConflict = true := by
      intro o ho
      rcases List.mem_map.mp ho with ⟨_, _, rfl⟩
      by_cases he :
          (findAlternativeSlots did d ws we sd (table ++ [r.toRow])).isEmpty <;>
        simp [conflictOutcomeFor, he, BookingOutcome.isConflict]
    refine ⟨?_, ?_, ?_⟩
    · simp only [List.countP_cons, BookingOutcome.isBooked,
        Nat.add_eq, if_pos rfl]
      have : ∀ o ∈ (rs.map fun _ =>
          conflictOutcomeFor ws we sd did d (table ++ [r.toRow])),
          o.isBooked = false := by
        intro o ho
        have := hconf o ho
        cases o with
        | booked => simp [BookingOutcome.isConflict] at this
        | conflictResponse m s => rfl
      rw [List.countP_eq_zero.mpr (by
        intro o ho
        simp [this o ho])]
      simp
    · simp only [List.countP_cons, BookingOutcome.isConflict]
      rw [List.countP_eq_length.mpr hconf]
      simp
    · intro o ho msg sugg hco
      rcases List.mem_cons.mp ho with rfl | homem
      · exact absurd hco (by simp)
      · rcases List.mem_map.mp homem with ⟨_, _, rfl⟩
        have := conflictOutcomeFor_valid ws we sd did d
          (table ++ [r.toRow]) hsd msg sugg hco
        exact ⟨this.1, this.2.1,
          fun s hs => ⟨(this.2.2.1 s hs).1, (this.2.2.1 s hs).2.1,
            (this.2.2.1 s hs).2.2⟩,
          this.2.2.2⟩

/-- Witness for C2: two identical attempts (doctor 1, 2025-12-22, 10:00,
30 minutes) against an empty table, working hours 09:00–17:00 with
30-minute slots. -/
theorem no_double_booking_witness :
    ((runAttempts 540 1020 30 []
      [⟨1, 1, "2025-12-22", 600, 30⟩, ⟨2, 1, "2025-12-22", 600, 30⟩]).1.countP
        BookingOutcome.isBooked) = 1 ∧
    ((runAttempts 540 1020 30 []
      [⟨1, 1, "2025-12-22", 600, 30⟩, ⟨2, 1, "2025-12-22", 600, 30⟩]).1.countP
        BookingOutcome.isConflict) =
      ([⟨1, 1, "2025-12-22", 600, 30⟩,
        ⟨2, 1, "2025-12-22", 600, 30⟩] : List BookingRequest).length - 1 ∧
    (∀ o ∈ (runAttempts 540 1020 30 []
      [⟨1, 1, "2025-12-22", 600, 30⟩, ⟨2, 1, "2025-12-22", 600, 30⟩]).1,
      ∀ msg sugg, o = .conflictResponse msg sugg →
        sugg.length ≤ 5 ∧ sugg.Pairwise (· < ·) ∧
        (∀ s ∈ sugg, 540 ≤ s ∧ s + 30 ≤ 1020 ∧
          overlapExists 1 "2025-12-22" s 30
            (runAttempts 540 1020 30 []
              [⟨1, 1, "2025-12-22", 600, 30⟩,
               ⟨2, 1, "2025-12-22", 600, 30⟩]).2 = false) ∧
        (sugg = [] → msg = noAlternativesMessage)) :=
  no_double_booking 540 1020 30 1 600 "2025-12-22" []
    [⟨1, 1, "2025-12-22", 600, 30⟩, ⟨2, 1, "2025-12-22", 600, 30⟩]
    (by decide) (by decide) (by decide) (by decide)

/-- A tool call requested by the language model: the tool's name, its JSON
arguments (kept opaque), and the call id correlating request and response. -/
structure ToolCall where
  name : String
  arguments : String
  callId : String
deriving DecidableEq, Repr

/-- One language-model response: free text content and the list of requested
tool calls; the loop treats an empty list as `no tool calls`. -/
structure LLMResponse where
  content : String
  toolCalls : List ToolCall
deriving DecidableEq, Repr

/-- One entry of the `llm_messages` transcript. -/
inductive ChatMsg
| system (text : String)
| user (text : String)
| assistant (text : String)
| assistantToolCalls (calls : List ToolCall)
| tool (callId : String) (toolName : String) (content : String)
deriving DecidableEq, Repr

/-- The result of executing one tool call, as appended to the transcript. -/
structure ToolResult where
  callId : String
  toolName : String
  result : String
deriving DecidableEq, Repr

/-- The response envelope returned by `process_message`. -/
structure AgentResult where
  success : Bool
  response : String
  tool_calls_made : Nat
  iterations : Nat
  warning : Option String
  error : Option String
deriving DecidableEq, Repr

/-- The mutable state of one agent-loop run: the `llm_messages` transcript,
the accumulated `all_tool_results`, the number of language-model calls made
so far, and the iteration counter. -/
structure LoopState where
  messages : List ChatMsg
  toolResults : List ToolResult
  llmCalls : Nat
  iteration : Nat
deriving DecidableEq, Repr

/-- `max_iterations` as configured on the agent. -/
def defaultMaxIterations : Nat := 5

/-- The fixed `_synthesize_final_response`: formats the accumulated tool
results into a deterministic reply and — per the duplication fix — only
reads the transcript, never appending to it (it returns a string and takes
the message list by value). The per-tool formatting branches of the source
(doctor listings, booking confirmations) are rendered uniformly here. -/
def synthesize_final_response (_messages : List ChatMsg)
    (toolResults : List ToolResult) : String :=
  toolResults.foldl
    (fun acc r => acc ++ "Result from " ++ r.toolName ++ ": " ++ r.result ++ "\n")
    ""

/-- The result built when the loop exits its `while` with
`iteration == max_iterations`: a best-effort success with a warning when
tool results exist, otherwise a generic failure. -/
def exhaustResult (st : LoopState) : AgentResult :=
  if st.toolResults.isEmpty then
    { success := false,
      response := "I apologize, but I'm having trouble processing your request. Please try again.",
      tool_calls_made := 0, iterations := st.iteration,
      warning := none,
      error := some "Max iterations reached without results" }
  else
    { success := true,
      response := synthesize_final_response st.messages st.toolResults,
      tool_calls_made := st.toolResults.length, iterations := st.iteration,
      warning := some "Max iterations reached - LLM may not be responding properly",
      error := none }

/-- The result built when the model answers with plain content and no tool
calls: the content is the final answer, except that empty content with
accumulated tool results falls back to the deterministic synthesis. -/
def contentResult (resp : LLMResponse) (st : LoopState) : AgentResult :=
  let finalContent :=
    if resp.content = "" ∧ st.toolResults ≠ [] then
      synthesize_final_response st.messages st.toolResults
    else resp.content
  { success := true, response := finalContent,
    tool_calls_made := st.toolResults.length, iterations := st.iteration,
    warning := none, error := none }

/-- Executes the requested tool calls in order and appends — exactly once —
the assistant tool-call message and one `tool` transcript entry per result,
also accumulating the results into `all_tool_results`. -/
def execToolStep (toolExec : ToolCall → String) (calls : List ToolCall)
    (st : LoopState) : LoopState :=
  let results := calls.map fun c => (⟨c.callId, c.name, toolExec c⟩ : ToolResult)
  { st with
    messages := st.messages ++ [ChatMsg.assistantToolCalls calls] ++
      results.map (fun r => ChatMsg.tool r.callId r.toolName r.result),
    toolResults := st.toolResults ++ results }

/-- The fixed agent loop of `backend/agents/orchestrator.py`, structurally
recursive on the remaining iteration budget (`max_iterations - iteration`),
mirroring `while iteration < max_iterations`. The language model is the
oracle `llm`, consulted once per iteration on the index of the call. -/
def agentLoop (llm : Nat → LLMResponse) (toolExec : ToolCall → String) :
    Nat → LoopState → AgentResult × LoopState
  | 0, st => (exhaustResult st, st)
  | fuel + 1, st =>
    let resp := llm st.llmCalls
    let st1 : LoopState :=
      { st with llmCalls := st.llmCalls + 1, iteration := st.iteration + 1 }
    if resp.toolCalls = [] then
      (contentResult resp st1, st1)
    else
      agentLoop llm toolExec fuel (execToolStep toolExec resp.toolCalls st1)

/-- `process_message`: builds the initial transcript from the system
instructions, the rendered memory summary and the user message, then runs
the bounded agent loop. -/
def process_message (llm : Nat → LLMResponse) (toolExec : ToolCall → String)
    (maxIterations : Nat) (systemPrompt memoryContext userMessage : String) :
    AgentResult × LoopState :=
  agentLoop llm toolExec maxIterations
    { messages := [ChatMsg.system systemPrompt, ChatMsg.system memoryContext,
        ChatMsg.user userMessage],
      toolResults := [], llmCalls := 0, iteration := 0 }

theorem agentLoop_llmCalls_le (llm : Nat → LLMResponse)
    (toolExec : ToolCall → String) :
    ∀ (fuel : Nat) (st : LoopState),
      ((agentLoop llm toolExec fuel st).2).llmCalls ≤ st.llmCalls + fuel
  | 0, st => Nat.le_add_right _ _
  | fuel + 1, st => by
    by_cases h : (llm st.llmCalls).toolCalls = []
    · simp only [agentLoop, h, if_pos]
      omega
    · simp only [agentLoop, h, if_neg, not_false_iff]
      have := agentLoop_llmCalls_le llm toolExec fuel
        (execToolStep toolExec (llm st.llmCalls).toolCalls
          { st with llmCalls := st.llmCalls + 1, iteration := st.iteration + 1 })
      simp only [execToolStep] at this ⊢
      omega

/-- Claim C3: for every sequence of language-model responses — including a
model that requests tool calls on every round — `process_message` terminates
(it is a total function of the iteration budget) and performs at most
`maxIterations + 1` language-model calls, where the configured
`max_iterations` is 5. -/
theorem orchestrator_call_bound (llm : Nat → LLMResponse)
    (toolExec : ToolCall → String) (maxIterations : Nat)
    (systemPrompt memoryContext userMessage : String) :
    ((process_message llm toolExec maxIterations systemPrompt memoryContext
        userMessage).2).llmCalls ≤ maxIterations + 1 ∧
    defaultMaxIterations = 5 := by
  refine ⟨?_, rfl⟩
  have := agentLoop_llmCalls_le llm toolExec maxIterations
    { messages := [ChatMsg.system systemPrompt, ChatMsg.system memoryContext,
        ChatMsg.user userMessage],
      toolResults := [], llmCalls := 0, iteration := 0 }
  simp only [process_message]
  simp at this
  omega

theorem agentLoop_result_of_always_tools (llm : Nat → LLMResponse)
    (toolExec : ToolCall → String)
    (hall : ∀ k, (llm k).toolCalls ≠ []) :
    ∀ (fuel : Nat) (st : LoopState),
      (agentLoop llm toolExec fuel st).1 =
        exhaustResult ((agentLoop llm toolExec fuel st).2)
  | 0, _ => rfl
  | fuel + 1, st => by
    have h := hall st.llmCalls
    simp only [agentLoop, h, if_neg, not_false_iff]
    exact agentLoop_result_of_always_tools llm toolExec hall fuel _

/-- Claim C4: when the loop exhausts `maxIterations`, the envelope is never
an empty success — with accumulated tool results it is a success carrying
the deterministically synthesized response and a warning; with no tool
results at all it is a failure with a generic unable-to-process message and
an error. -/
theorem max_iterations_envelope (llm : Nat → LLMResponse)
    (toolExec : ToolCall → String) (maxIterations : Nat)
    (systemPrompt memoryContext userMessage : String)
    (hall : ∀ k, (llm k).toolCalls ≠ []) :
    (((process_message llm toolExec maxIterations systemPrompt memoryContext
          userMessage).2).toolResults ≠ [] →
      ((process_message llm toolExec maxIterations systemPrompt memoryContext
          userMessage).1).success = true ∧
      ((process_message llm toolExec maxIterations systemPrompt memoryContext
          userMessage).1).warning =
        some "Max iterations reached - LLM may not be responding properly" ∧
      ((process_message llm toolExec maxIterations systemPrompt memoryContext
          userMessage).1).response =
        synthesize_final_response
          ((process_message llm toolExec maxIterations systemPrompt
            memoryContext userMessage).2).messages
          ((process_message llm toolExec maxIterations systemPrompt
            memoryContext userMessage).2).toolResults) ∧
    (((process_message llm toolExec maxIterations systemPrompt memoryContext
          userMessage).2).toolResults = [] →
      ((process_message llm toolExec maxIterations systemPrompt memoryContext
          userMessage).1).success = false ∧
      ((process_message llm toolExec maxIterations systemPrompt memoryContext
          userMessage).1).error = some "Max iterations reached without results" ∧
      ((process_message llm toolExec maxIterations systemPrompt memoryContext
          userMessage).1).response =
        "I apologize, but I'm having trouble processing your request. Please try again.") := by
  have hres := agentLoop_result_of_always_tools llm toolExec hall maxIterations
    { messages := [ChatMsg.system systemPrompt, ChatMsg.system memoryContext,
        ChatMsg.user userMessage],
      toolResults := [], llmCalls := 0, iteration := 0 }
  constructor
  · intro hne
    have hemp : ((process_message llm toolExec maxIterations systemPrompt
        memoryContext userMessage).2).toolResults.isEmpty = false := by
      cases h : ((process_message llm toolExec maxIterations systemPrompt
          memoryContext userMessage).2).toolResults
      · exact absurd h hne
      · rfl
    simp only [process_message] at hemp ⊢
    rw [hres]
    simp [exhaustResult, hemp]
  · intro heq
    have hemp : ((process_message llm toolExec maxIterations systemPrompt
        memoryContext userMessage).2).toolResults.isEmpty = true := by
      simp only [List.isEmpty_iff]
      exact heq
    simp only [process_message] at hemp ⊢
    rw [hres]
    simp [exhaustResult, hemp]

/-- Witness for C4: a model that requests the same availability tool on
every round, run with the configured budget of 5 iterations; tool results
accumulate, so the first branch applies. -/
theorem max_iterations_envelope_witness :
    (((process_message
          (fun k => ⟨"", [⟨"check_availability", "date", "call-" ++ toString k⟩]⟩)
          (fun _ => "ok") defaultMaxIterations "sys" "" "book me").2).toolResults ≠ [] →
      ((process_message
          (fun k => ⟨"", [⟨"check_availability", "date", "call-" ++ toString k⟩]⟩)
          (fun _ => "ok") defaultMaxIterations "sys" "" "book me").1).success = true ∧
      ((process_message
          (fun k => ⟨"", [⟨"check_availability", "date", "call-" ++ toString k⟩]⟩)
          (fun _ => "ok") defaultMaxIterations "sys" "" "book me").1).warning =
        some "Max iterations reached - LLM may not be responding properly" ∧
      ((process_message
          (fun k => ⟨"", [⟨"check_availability", "date", "call-" ++ toString k⟩]⟩)
          (fun _ => "ok") defaultMaxIterations "sys" "" "book me").1).response =
        synthesize_final_response
          ((process_message
            (fun k => ⟨"", [⟨"check_availability", "date", "call-" ++ toString k⟩]⟩)
            (fun _ => "ok") defaultMaxIterations "sys" "" "book me").2).messages
          ((process_message
            (fun k => ⟨"", [⟨"check_availability", "date", "call-" ++ toString k⟩]⟩)
            (fun _ => "ok") defaultMaxIterations "sys" "" "book me").2).toolResults) ∧
    (((process_message
          (fun k => ⟨"", [⟨"check_availability", "date", "call-" ++ toString k⟩]⟩)
          (fun _ => "ok") defaultMaxIterations "sys" "" "book me").2).toolResults = [] →
      ((process_message
          (fun k => ⟨"", [⟨"check_availability", "date", "call-" ++ toString k⟩]⟩)
          (fun _ => "ok") defaultMaxIterations "sys" "" "book me").1).success = false ∧
      ((process_message
          (fun k => ⟨"", [⟨"check_availability", "date", "call-" ++ toString k⟩]⟩)
          (fun _ => "ok") defaultMaxIterations "sys" "" "book me").1).error =
        some "Max iterations reached without results" ∧
      ((process_message
          (fun k => ⟨"", [⟨"check_availability", "date", "call-" ++ toString k⟩]⟩)
          (fun _ => "ok") defaultMaxIterations "sys" "" "book me").1).response =
        "I apologize, but I'm having trouble processing your request. Please try again.") :=
  max_iterations_envelope
    (fun k => ⟨"", [⟨"check_availability", "date", "call-" ++ toString k⟩]⟩)
    (fun _ => "ok") defaultMaxIterations "sys" "" "book me"
    (fun _ => by simp)

/-- The call ids of the `tool`-role entries of a transcript, in order. -/
def transcriptToolCallIds (ms : List ChatMsg) : List String :=
  ms.filterMap fun m =>
    match m with
    | ChatMsg.tool cid _ _ => some cid
    | _ => none

theorem transcriptToolCallIds_append (ms ns : List ChatMsg) :
    transcriptToolCallIds (ms ++ ns) =
      transcriptToolCallIds ms ++ transcriptToolCallIds ns :=
  List.filterMap_append ms ns _

theorem transcriptToolCallIds_toolMsgs (rs : List ToolResult) :
    transcriptToolCallIds
        (rs.map fun r => ChatMsg.tool r.callId r.toolName r.result) =
      rs.map fun r => r.callId := by
  induction rs with
  | nil => rfl
  | cons r rs ih =>
    simp only [List.map_cons, transcriptToolCallIds, List.filterMap_cons] at ih ⊢
    rw [ih]

theorem agentLoop_transcript_invariant (llm : Nat → LLMResponse)
    (toolExec : ToolCall → String) :
    ∀ (fuel : Nat) (st : LoopState),
      transcriptToolCallIds st.messages =
        st.toolResults.map (fun r => r.callId) →
      transcriptToolCallIds ((agentLoop llm toolExec fuel st).2).messages =
        ((agentLoop llm toolExec fuel st).2).toolResults.map
          (fun r => r.callId)
  | 0, _, hin => hin
  | fuel + 1, st, hin => by
    by_cases h : (llm st.llmCalls).toolCalls = []
    · simp only [agentLoop, h, if_pos]
      exact hin
    · simp only [agentLoop, h, if_neg, not_false_iff]
      refine agentLoop_transcript_invariant llm toolExec fuel _ ?_
      have hatc : transcriptToolCallIds
          [ChatMsg.assistantToolCalls (llm st.llmCalls).toolCalls] = [] := rfl
      simp only [execToolStep, transcriptToolCallIds_append, List.map_append,
        hin, hatc, transcriptToolCallIds_toolMsgs, List.append_nil]

/-- Claim C8: in every run of the agent loop — including runs ending in the
fallback synthesis, which only reads the tool results — each tool
invocation result is appended to the transcript exactly once: the
transcript's tool-entry call ids are exactly the call ids of the
accumulated results in order, so whenever the call ids produced during the
run are pairwise distinct, no call id appears in the transcript more than
once. -/
theorem transcript_appends_exactly_once (llm : Nat → LLMResponse)
    (toolExec : ToolCall → String) (maxIterations : Nat)
    (systemPrompt memoryContext userMessage : String)
    (hnodup : (((process_message llm toolExec maxIterations systemPrompt
        memoryContext userMessage).2).toolResults.map
          (fun r => r.callId)).Nodup) :
    transcriptToolCallIds
        ((process_message llm toolExec maxIterations systemPrompt
          memoryContext userMessage).2).messages =
      ((process_message llm toolExec maxIterations systemPrompt
        memoryContext userMessage).2).toolResults.map (fun r => r.callId) ∧
    (transcriptToolCallIds
        ((process_message llm toolExec maxIterations systemPrompt
          memoryContext userMessage).2).messages).Nodup ∧
    ∀ cid, (transcriptToolCallIds
        ((process_message llm toolExec maxIterations systemPrompt
          memoryContext userMessage).2).messages).count cid ≤ 1 := by
  have hmain := agentLoop_transcript_invariant llm toolExec maxIterations
    { messages := [ChatMsg.system systemPrompt, ChatMsg.system memoryContext,
        ChatMsg.user userMessage],
      toolResults := [], llmCalls := 0, iteration := 0 }
    (by simp [transcriptToolCallIds, List.filterMap_cons])
  simp only [process_message] at hnodup ⊢
  refine ⟨hmain, ?_, ?_⟩
  · rw [hmain]; exact hnodup
  · intro cid
    rw [hmain]
    exact List.nodup_iff_count_le_one.mp hnodup cid

/-- Witness for C8: the always-tool-calling model with per-round call ids
`call-0` … `call-4` run for 5 iterations; the produced call ids are
distinct, and the theorem yields the exactly-once transcript property. -/
theorem transcript_appends_exactly_once_witness :
    transcriptToolCallIds
        ((process_message
          (fun k => ⟨"", [⟨"list_doctors", "", "call-" ++ toString k⟩]⟩)
          (fun _ => "ok") 5 "sys" "" "show doctors").2).messages =
      ((process_message
        (fun k => ⟨"", [⟨"list_doctors", "", "call-" ++ toString k⟩]⟩)
        (fun _ => "ok") 5 "sys" "" "show doctors").2).toolResults.map
          (fun r => r.callId) ∧
    (transcriptToolCallIds
        ((process_message
          (fun k => ⟨"", [⟨"list_doctors", "", "call-" ++ toString k⟩]⟩)
          (fun _ => "ok") 5 "sys" "" "show doctors").2).messages).Nodup ∧
    ∀ cid, (transcriptToolCallIds
        ((process_message
          (fun k => ⟨"", [⟨"list_doctors", "", "call-" ++ toString k⟩]⟩)
          (fun _ => "ok") 5 "sys" "" "show doctors").2).messages).count cid ≤ 1 :=
  transcript_appends_exactly_once
    (fun k => ⟨"", [⟨"list_doctors", "", "call-" ++ toString k⟩]⟩)
    (fun _ => "ok") 5 "sys" "" "show doctors" (by decide)

/-- The doctor selection stored inside a conversation context. -/
structure SelectedDoctor where
  id : Nat
  name : String
  specialization : String
deriving DecidableEq, Repr

/-- The body of one `conversation_contexts` row: the context-data JSON plus
the turn-tracking columns. -/
structure ConversationContext where
  selected_doctor : Option SelectedDoctor
  attempted_dates : List (String × String)
  last_rejection_reason : Option String
  last_booking : Option (Nat × String × String × String)
  message_count : Nat
  last_message : String
  last_response : String
deriving DecidableEq, Repr

/-- The context a row starts from when created lazily. -/
def ConversationContext.empty : ConversationContext :=
  ⟨none, [], none, none, 0, "", ""⟩

/-- The `conversation_contexts` table, keyed by the composite
`(session_id, patient_email)` — the unique index `idx_session_user` makes
the pair the lookup key, so the table is a partial map on it. -/
abbrev MemoryStore : Type := String → String → Option ConversationContext

def emptyStore : MemoryStore := fun _ _ => none

/-- Modelled from the spec: the body of `update_context` in
`backend/utils/conversation_memory.py` is not among the source files (the
source shows only the dual-key `WHERE session_id = ? AND patient_email = ?`
filter every method uses); per that filter it reads, creates if absent, and
rewrites exactly the row keyed by both identifiers. -/
def update_context (st : MemoryStore) (session_id patient_email : String)
    (f : ConversationContext → ConversationContext) : MemoryStore :=
  fun s u =>
    if s = session_id ∧ u = patient_email then
      some (f ((st session_id patient_email).getD ConversationContext.empty))
    else st s u

/-- The mutation operations of the conversation memory manager, each keyed
by `(session_id, patient_email)`. -/
inductive MemoryOp
| save_doctor_selection (session_id patient_email : String)
    (doctor : SelectedDoctor)
| save_attempted_date (session_id patient_email date reason : String)
| save_successful_booking (session_id patient_email : String)
    (appointment_id : Nat) (doctor_name date time : String)
| update_message_count (session_id patient_email user_message response : String)
| get_or_create_context (session_id patient_email : String)
deriving DecidableEq, Repr

/-- The `(session_id, patient_email)` pair an operation is keyed by. -/
def MemoryOp.key : MemoryOp → String × String
  | .save_doctor_selection s u _ => (s, u)
  | .save_attempted_date s u _ _ => (s, u)
  | .save_successful_booking s u _ _ _ _ => (s, u)
  | .update_message_count s u _ _ => (s, u)
  | .get_or_create_context s u => (s, u)

/-- Modelled from the spec: the field updates each record method performs on
its own row (bodies not among the source files; the operation list and the
context-data fields are). -/
def MemoryOp.applyOp : MemoryOp → MemoryStore → MemoryStore
  | .save_doctor_selection s u doctor, st =>
    update_context st s u fun c => { c with selected_doctor := some doctor }
  | .save_attempted_date s u date reason, st =>
    update_context st s u fun c =>
      { c with attempted_dates := c.attempted_dates ++ [(date, reason)],
               last_rejection_reason := some reason }
  | .save_successful_booking s u i dn date time, st =>
    update_context st s u fun c =>
      { c with last_booking := some (i, dn, date, time) }
  | .update_message_count s u m r, st =>
    update_context st s u fun c =>
      { c with message_count := c.message_count + 1,
               last_message := m, last_response := r }
  | .get_or_create_context s u, st => update_context st s u id

def applyOps (ops : List MemoryOp) (st : MemoryStore) : MemoryStore :=
  ops.foldl (fun acc op => op.applyOp acc) st

/-- The summary text rendered from one context for prompt injection. -/
def renderContext (c : ConversationContext) : String :=
  (match c.selected_doctor with
   | some d => "Previously selected doctor: " ++ d.name ++ " (" ++
       d.specialization ++ "). "
   | none => "") ++
  (if c.attempted_dates.isEmpty then ""
   else "Attempted dates: " ++
     String.intercalate ", " (c.attempted_dates.map Prod.fst) ++ ". ") ++
  (match c.last_rejection_reason with
   | some r => "Last rejection: " ++ r ++ ". "
   | none => "") ++
  (match c.last_booking with
   | some b => "Last successful booking: " ++ b.2.1 ++ " on " ++ b.2.2.1 ++
       " at " ++ b.2.2.2 ++ ". "
   | none => "")

/-- `get_context_for_prompt`: no email means no context (empty string, never
an error), and the lookup filters by both `session_id` and `patient_email`. -/
def get_context_for_prompt (st : MemoryStore)
    (session_id patient_email : String) : String :=
  if patient_email = "" then ""
  else
    match st session_id patient_email with
    | none => ""
    | some c => renderContext c

theorem update_context_frame (st : MemoryStore) (sid pe : String)
    (f : ConversationContext → ConversationContext) (s u : String)
    (h : (s, u) ≠ (sid, pe)) : update_context st sid pe f s u = st s u := by
  simp only [update_context]
  rw [if_neg]
  rintro ⟨rfl, rfl⟩
  exact h rfl

theorem MemoryOp.applyOp_frame (op : MemoryOp) (st : MemoryStore)
    (s u : String) (h : (s, u) ≠ op.key) : op.applyOp st s u = st s u := by
  cases op <;> simp only [MemoryOp.applyOp, MemoryOp.key] at h ⊢ <;>
    exact update_context_frame st _ _ _ s u h

theorem applyOps_frame (ops : List MemoryOp) (st : MemoryStore)
    (s u : String) (h : ∀ op ∈ ops, op.key ≠ (s, u)) :
    applyOps ops st s u = st s u := by
  induction ops generalizing st with
  | nil => rfl
  | cons op ops ih =>
    have h1 : (s, u) ≠ op.key :=
      fun he => h op (List.mem_cons_self op ops) he.symm
    calc applyOps (op :: ops) st s u
        = applyOps ops (op.applyOp st) s u := rfl
      _ = op.applyOp st s u :=
          ih (op.applyOp st) (fun o ho => h o (List.mem_cons_of_mem op ho))
      _ = st s u := MemoryOp.applyOp_frame op st s u h1

/-- Claim C1: every memory operation reads and writes only the context keyed
by its own `(sessionId, userId)` pair; consequently, after any sequence of
record operations invoked for pairs other than `(s, u)`, both the stored row
at `(s, u)` and the rendered summary for `(s, u)` are unchanged — the
summary for `(s, A)` can never contain data recorded for `(s, B)`. -/
theorem conversation_context_isolation (st : MemoryStore)
    (ops : List MemoryOp) (s u : String)
    (h : ∀ op ∈ ops, op.key ≠ (s, u)) :
    applyOps ops st s u = st s u ∧
    get_context_for_prompt (applyOps ops st) s u =
      get_context_for_prompt st s u := by
  have hf := applyOps_frame ops st s u h
  exact ⟨hf, by simp only [get_context_for_prompt, hf]⟩

/-- Witness for C1: user B's recorded doctor selection and rejected attempt
under session `s123` leave user A's row and rendered summary under the same
session untouched. -/
theorem conversation_context_isolation_witness :
    applyOps
      [MemoryOp.save_doctor_selection "s123" "userB@example.com"
        ⟨1, "Dr. Rajesh Ahuja", "Cardiology"⟩,
       MemoryOp.save_attempted_date "s123" "userB@example.com"
        "2025-12-21" "Doctor not available on Saturdays"]
      emptyStore "s123" "userA@example.com" =
      emptyStore "s123" "userA@example.com" ∧
    get_context_for_prompt
      (applyOps
        [MemoryOp.save_doctor_selection "s123" "userB@example.com"
          ⟨1, "Dr. Rajesh Ahuja", "Cardiology"⟩,
         MemoryOp.save_attempted_date "s123" "userB@example.com"
          "2025-12-21" "Doctor not available on Saturdays"]
        emptyStore) "s123" "userA@example.com" =
      get_context_for_prompt emptyStore "s123" "userA@example.com" :=
  conversation_context_isolation emptyStore
    [MemoryOp.save_doctor_selection "s123" "userB@example.com"
      ⟨1, "Dr. Rajesh Ahuja", "Cardiology"⟩,
     MemoryOp.save_attempted_date "s123" "userB@example.com"
      "2025-12-21" "Doctor not available on Saturdays"]
    "s123" "userA@example.com" (by decide)

/-- The request body of the chat endpoint (`ChatMessage` in
`backend/main.py`): `user_email` is the required user identifier. -/
structure ChatMessage where
  session_id : Option String
  message : String
  user_type : String
  user_email : String
deriving DecidableEq, Repr

/-- One access to the conversation-memory store, recorded for auditing which
rows a request touched. -/
inductive MemAccess
| read (session_id patient_email : String)
| write (session_id patient_email : String)
deriving DecidableEq, Repr

/-- The boundary test `not message.user_email or not message.user_email.strip()`:
a string strips to the empty string exactly when every character is
whitespace (the empty string vacuously so), so the test holds precisely of
all-whitespace strings. -/
def isBlank (s : String) : Bool := s.data.all Char.isWhitespace

/-- The chat endpoint: validates `user_email` at the boundary
(`if not message.user_email or not message.user_email.strip()` → HTTP 400)
before any memory access, then runs the agent loop on the rendered memory
summary and persists the turn; the returned trace lists the memory accesses
performed. -/
def chat (llm : Nat → LLMResponse) (toolExec : ToolCall → String)
    (maxIterations : Nat) (systemPrompt : String) (msg : ChatMessage)
    (st : MemoryStore) :
    Except (Nat × String) AgentResult × MemoryStore × List MemAccess :=
  if isBlank msg.user_email = true then
    (.error (400, "user_email is required for conversation isolation"), st, [])
  else
    let session_id := msg.session_id.getD "generated-session-id"
    let memoryContext := get_context_for_prompt st session_id msg.user_email
    let result := process_message llm toolExec maxIterations systemPrompt
      memoryContext msg.message
    let st2 := (MemoryOp.update_message_count session_id msg.user_email
      msg.message result.1.response).applyOp st
    (.ok result.1, st2,
      [.read session_id msg.user_email, .write session_id msg.user_email])

/-- Claim C9: a request whose user identifier is blank is rejected at the
boundary with the missing-user-identifier error, the memory store is left
exactly as it was, and the access trace is empty — no conversation-context
read or write happens. -/
theorem missing_user_identifier_rejected (llm : Nat → LLMResponse)
    (toolExec : ToolCall → String) (maxIterations : Nat)
    (systemPrompt : String) (msg : ChatMessage) (st : MemoryStore)
    (h : isBlank msg.user_email = true) :
    chat llm toolExec maxIterations systemPrompt msg st =
      (.error (400, "user_email is required for conversation isolation"),
        st, []) := by
  simp only [chat, if_pos h]

/-- Witness for C9: a whitespace-only `user_email` is rejected with no
memory access. -/
theorem missing_user_identifier_rejected_witness :
    chat (fun _ => ⟨"hello", []⟩) (fun _ => "ok") 5 "sys"
        ⟨none, "book me an appointment", "patient", "   "⟩ emptyStore =
      (.error (400, "user_email is required for conversation isolation"),
        emptyStore, []) :=
  missing_user_identifier_rejected (fun _ => ⟨"hello", []⟩) (fun _ => "ok")
    5 "sys" ⟨none, "book me an appointment", "patient", "   "⟩ emptyStore
    (by decide)

/-- A Gregorian calendar date, as Python's `datetime.date`. -/
structure PyDate where
  year : Nat
  month : Nat
  day : Nat
deriving DecidableEq, Repr

def isLeapYear (y : Nat) : Bool :=
  (y % 4 == 0 && y % 100 != 0) || y % 400 == 0

def daysInMonth (y m : Nat) : Nat :=
  if m = 2 then (if isLeapYear y then 29 else 28)
  else if m = 4 ∨ m = 6 ∨ m = 9 ∨ m = 11 then 30
  else 31

/-- Python date ordering: lexicographic on (year, month, day). -/
def PyDate.ltB (a b : PyDate) : Bool :=
  Nat.blt a.year b.year ||
    (a.year == b.year &&
      (Nat.blt a.month b.month ||
        (a.month == b.month && Nat.blt a.day b.day)))

/-- Python's `date.replace(month=m)`: validates the new month number and the
unchanged day against the new month, raising `ValueError` otherwise. -/
def PyDate.replaceMonth (d : PyDate) (m : Nat) : Except String PyDate :=
  if 1 ≤ m ∧ m ≤ 12 then
    if d.day ≤ daysInMonth d.year m then .ok ⟨d.year, m, d.day⟩
    else .error "ValueError: day is out of range for month"
  else .error "ValueError: month must be in 1..12"

/-- The three ways a call to `validate_date` can end: a returned date, a
raised `ValidationError` (the rejection contract), or a `ValueError` that
escapes the function — only `strptime` is wrapped in its `try` block. -/
inductive DateValidationResult
| ok (d : PyDate)
| rejected (reason : String)
| uncaughtValueError (message : String)
deriving DecidableEq, Repr

/-- `InputValidator.validate_date`: rejects dates before today, then
computes the booking horizon as
`date.today().replace(month=date.today().month + 6)` and rejects dates past
it. The incoming string is taken as already parsed (the claim concerns the
behaviour on valid dates); a `ValueError` raised by `replace` is not caught. -/
def validate_date (today appt_date : PyDate) : DateValidationResult :=
  if PyDate.ltB appt_date today then
    .rejected "Appointment date cannot be in the past"
  else
    match today.replaceMonth (today.month + 6) with
    | .error e => .uncaughtValueError e
    | .ok max_date =>
      if PyDate.ltB max_date appt_date then
        .rejected "Cannot book more than 6 months in advance"
      else .ok appt_date

/-- Claim C7 is violated by the code: `validate_date` is not total over
calendar months. Called on 2025-07-15 (any day July through December), the
horizon computation `today.replace(month = today.month + 6)` asks for month
13 and raises an uncaught `ValueError`; called on 2025-03-31 it asks for
September 31 and likewise raises. In months where the horizon exists the
function does return Ok or the two Rejected cases the claim lists. -/
theorem validate_date_not_total :
    validate_date ⟨2025, 7, 15⟩ ⟨2025, 8, 1⟩ =
      .uncaughtValueError "ValueError: month must be in 1..12" ∧
    validate_date ⟨2025, 3, 31⟩ ⟨2025, 4, 10⟩ =
      .uncaughtValueError "ValueError: day is out of range for month" ∧
    validate_date ⟨2025, 1, 15⟩ ⟨2024, 12, 31⟩ =
      .rejected "Appointment date cannot be in the past" ∧
    validate_date ⟨2025, 1, 15⟩ ⟨2025, 12, 31⟩ =
      .rejected "Cannot book more than 6 months in advance" ∧
    validate_date ⟨2025, 1, 15⟩ ⟨2025, 3, 10⟩ = .ok ⟨2025, 3, 10⟩ := by
  decide

end SmartDoctor
